import Mathlib

/-!
# Verification of the autoklug incremental build engine

The repository ships only its test suite and packaging metadata under
`src/`; the implementation package (`autoklug.core.utils.zipping`,
`autoklug.core.builders`, `autoklug.utils`) is not present.  Every
definition below is therefore modelled from the specification
(`spec.md`), faithful to its words, and checked against the behaviour
the repository's own tests demand.

Paths, file contents and configuration values are `String`s; file modes
and zip external attributes are `Nat`s with explicit `% 2 ^ 16` where the
16-bit shift of the zip format matters.  The SHA-256 content digest is
abstracted — as the spec's §4.3 step 5 licenses — by the canonical
sorted serialization of the archive's entries (path, data, attributes):
the spec assumes the hash collision-free, under which assumption digest
equality and canonical-form equality coincide.
-/

/-- A regular file of a source directory: relative path, content bytes
(as a string) and POSIX mode bits. -/
structure SrcFile where
  path : String
  content : String
  mode : Nat
deriving DecidableEq, Repr

/-- An entry of a produced zip archive: archive name, stored data and
the zip external attributes word (POSIX mode in the high 16 bits). -/
structure ZipEntry where
  filename : String
  data : String
  external_attr : Nat
deriving DecidableEq, Repr

/-- One discovered HTTP route (spec §3 RouterEntry / §6 router data
interchange shape). -/
structure RouterEntry where
  method : String
  urlRule : String
  urlRuleAG : String
  rootPath : String
  filePath : String
deriving DecidableEq, Repr

/-- Split a relative path into its `/`-separated components. -/
def componentsAux : List Char → List Char → List String
  | [], cur => [String.mk cur.reverse]
  | c :: rest, cur =>
    if c = '/' then String.mk cur.reverse :: componentsAux rest []
    else componentsAux rest (c :: cur)

/-- The `/`-separated components of a relative path. -/
def path_components (p : String) : List String := componentsAux p.data []

/-- The final component (base name) of a relative path. -/
def base_name (p : String) : String := (path_components p).getLastD ""

/-- `str_ends_with s suf` is true when `suf` is a suffix of `s`. -/
def str_ends_with (s suf : String) : Bool := suf.data.isSuffixOf s.data

/-- Modelled from the spec (§4.3 step 1): the exclusion rule set of the
packager — compiled-bytecode files (`.pyc`), platform-native shared
objects (`.so`), OS metadata files (`.DS_Store`), virtual-environment
marker files (`_virtualenv.py`), and interpreter-cache directories
(`__pycache__` path components prune the whole subtree).  Applied
case-sensitively to the file's name and its path components. -/
def is_excluded (p : String) : Bool :=
  let name := base_name p
  str_ends_with name ".pyc" || str_ends_with name ".so" ||
    decide (name = ".DS_Store") || decide (name = "_virtualenv.py") ||
    (path_components p).contains "__pycache__"

/-- The archive entry produced for one source file: the zip external
attributes hold the POSIX mode in the high 16 bits. -/
def added_entry (f : SrcFile) (arcname : String) : ZipEntry :=
  ⟨arcname, f.content, f.mode % 2 ^ 16 * 2 ^ 16⟩

/-- Modelled from the spec (§4.3 step 2, zipping.add_file): append one
file to the archive under `arcname`, preserving its original file-mode
bits in the entry's external attributes. -/
def add_file (zf : List ZipEntry) (f : SrcFile) (arcname : String) : List ZipEntry :=
  zf ++ [added_entry f arcname]

/-- Serialization of the router table embedded into the synthesized
dispatcher source. -/
def routes_ser (rd : List RouterEntry) : String :=
  String.intercalate ";" (rd.map fun r => r.method ++ " " ++ r.urlRuleAG ++ " " ++ r.filePath)

/-- The part of the synthesized dispatcher source that precedes the
embedded router table. -/
def wrapper_head : String := "import importlib\n\nROUTES = \""

/-- The part of the synthesized dispatcher source that follows the
embedded router table. -/
def wrapper_tail : String :=
  "\"\n\ndef lambda_handler(event, context):\n    target = resolve(ROUTES, event)\n    module = importlib.import_module(target)\n    return module.lambda_handler(event, context)\n"

/-- Modelled from the spec (§4.3 step 3, §6): the synthesized dispatcher
source — defines the `lambda_handler` entry point and dynamically loads
the matched route's module via `importlib`. -/
def wrapper_content (rd : List RouterEntry) : String :=
  wrapper_head ++ (routes_ser rd ++ wrapper_tail)

/-- Modelled from the spec (§4.3 step 4, §6): the synthesized default
health-check handler body. -/
def health_content : String :=
  "def lambda_handler(event, context):\n    return \x7b\"statusCode\": 200, \"body\": \"This endpoint is responding as it should!\"\x7d\n"

/-- The literal confirmation phrase of the synthesized health handler. -/
def health_phrase : String := "This endpoint is responding as it should!"

/-- The source file behind the synthesized dispatcher entry. -/
def wrapper_file (rd : List RouterEntry) : SrcFile :=
  ⟨"lambda_function.py", wrapper_content rd, 420⟩

/-- The source file behind the synthesized health-check entry. -/
def health_file : SrcFile := ⟨"health/get.py", health_content, 420⟩

/-- Modelled from the spec (§4.3 zipping.create_zip_from_directory):
walk the source listing, drop excluded files, add the survivors
preserving relative path and mode, then synthesize the dispatcher when
router data is supplied and the default health handler when
`short_name` is the reserved health name and the user supplied none. -/
def create_zip_from_directory (files : List SrcFile) (function_name : Option String)
    (short_name : Option String) (router_data : List RouterEntry) : List ZipEntry :=
  let included := files.filter fun f => !is_excluded f.path
  let base := included.foldl (fun zf f => add_file zf f f.path) []
  let withWrapper :=
    if router_data = [] then base
    else add_file base (wrapper_file router_data) "lambda_function.py"
  if short_name = some "health" ∧ (∀ f ∈ files, f.path ≠ "health/get.py") then
    add_file withWrapper health_file "health/get.py"
  else withWrapper

/-- Strict lexicographic comparison of character lists, by code point. -/
def chars_lt : List Char → List Char → Bool
  | [], [] => false
  | [], _ :: _ => true
  | _ :: _, [] => false
  | a :: as, b :: bs =>
    if a.toNat < b.toNat then true
    else if b.toNat < a.toNat then false
    else chars_lt as bs

/-- Strict lexicographic comparison of strings, by code point. -/
def str_lt (a b : String) : Bool := chars_lt a.data b.data

/-- Total order on archive entries used to canonicalize the digest:
lexicographic on (filename, data, external attributes). -/
def zip_le (a b : ZipEntry) : Bool :=
  str_lt a.filename b.filename ||
    (decide (a.filename = b.filename) &&
      (str_lt a.data b.data ||
        (decide (a.data = b.data) && decide (a.external_attr ≤ b.external_attr))))

/-- The propositional form of `zip_le`. -/
def ZipLe (a b : ZipEntry) : Prop := zip_le a b = true

instance : DecidableRel ZipLe := fun a b => instDecidableEqBool (zip_le a b) true

/-- Modelled from the spec (§4.3 step 5, zipping.compute_sha256): the
content digest of an archive.  SHA-256 over the archive bytes is
abstracted by the canonical (sorted) serialization of the entries,
which the spec declares equivalent and requires to be deterministic
under file enumeration order; the hash is assumed collision-free. -/
def compute_sha256 (zf : List ZipEntry) : List ZipEntry :=
  zf.insertionSort ZipLe

/-- The digest the packager computes for a source directory when no
wrapper or health stub is requested. -/
def local_digest (files : List SrcFile) : List ZipEntry :=
  compute_sha256 (create_zip_from_directory files none none [])

/-- Modelled from the spec (§4.4 ChangeDetector,
zipping.compare_function_code): recompute the local digest of the
source directory and report that an update is needed iff it differs
from the supplied remote digest or the remote digest is unknown. -/
def compare_function_code (function_name : String) (files : List SrcFile)
    (remote : Option (List ZipEntry)) : Bool :=
  match remote with
  | none => true
  | some d => decide (d ≠ local_digest files)

/-- Replace the content of every file at path `p` with `c`, leaving
other files unchanged. -/
def alter_content (files : List SrcFile) (p c : String) : List SrcFile :=
  files.map fun f => if f.path = p then ⟨f.path, c, f.mode⟩ else f

/-- The POSIX mode an archive entry reads back: the high 16 bits of its
zip external attributes. -/
def zip_mode (e : ZipEntry) : Nat := e.external_attr / 2 ^ 16

/-- The top level of a project directory: its immediate subdirectory
names and its immediate file names. -/
structure Listing where
  dirs : List String
  files : List String
deriving DecidableEq, Repr

/-- Modelled from the spec (§3 ProjectContext): the immutable project
map produced once per invocation by context detection. -/
structure ProjectContext where
  current_dir : String
  infra : String
  is_public : Bool
  api_paths : List String
  layer_paths : List String
deriving DecidableEq, Repr

/-- Modelled from the spec (§4.1 ContextDetector,
utils.detect_project_context): a pure function of the top-level listing
— records the conventional private (`api`) and public (`api_public`)
API roots and the `layers` root when present, sets `is_public` iff the
public root is present, and resolves the active infra name from the
environment, then the configuration, then the fixed fallback. -/
def detect_project_context (cwd : String) (l : Listing)
    (env_infra config_infra : Option String) : ProjectContext :=
  { current_dir := cwd
    infra := env_infra.getD (config_infra.getD "dev")
    is_public := decide ("api_public" ∈ l.dirs)
    api_paths :=
      (if "api" ∈ l.dirs then ["./api"] else []) ++
        (if "api_public" ∈ l.dirs then ["./api_public"] else [])
    layer_paths := if "layers" ∈ l.dirs then ["./layers"] else [] }

/-- Modelled from the spec (§4.2 ConfigResolver): resolve one
configuration category by precedence — the generic filename first, then
the infra-suffixed one, then the public-suffixed one when the context is
public; absence of every variant yields `none` rather than an error. -/
def best_config_file (l : Listing) (base infra : String) (is_public : Bool) : Option String :=
  if base ∈ l.files then some base
  else if base ++ "." ++ infra ∈ l.files then some (base ++ "." ++ infra)
  else if is_public = true ∧ base ++ ".public" ∈ l.files then some (base ++ ".public")
  else none

/-- Modelled from the spec (§4.2, utils.find_best_config_files):
resolve the tool and env configuration files independently. -/
def find_best_config_files (l : Listing) (ctx : ProjectContext) :
    Option String × Option String :=
  (best_config_file l ".tool" ctx.infra ctx.is_public,
    best_config_file l ".env" ctx.infra ctx.is_public)

/-- Modelled from the spec (§4.2 load): load one resolved
configuration file through the given file reader; an absent file yields
the empty mapping, not an error. -/
def load_config (file : Option String) (read_pairs : String → List (String × String)) :
    List (String × String) :=
  match file with
  | none => []
  | some p => read_pairs p

/-- The observable operations of one orchestrator run. -/
inductive BuildEvent where
  | getExistingLayersEv
  | buildLayersEv
  | buildFunctionsEv
  | buildApiEv
deriving DecidableEq, Repr

/-- The external collaborators of the orchestrator (spec §2, §9): the
currently published layer records, and the per-tier build outcomes. -/
structure Collaborators where
  existing_layers : List String
  build_functions : List String → Bool
deriving Inhabited

/-- Modelled from the spec (§4.5 LayerBuilder.getExistingLayers):
resolve the currently published layer identifiers without repackaging
or rebuilding; emits no layer-build event. -/
def get_existing_layers (c : Collaborators) : List String × List BuildEvent :=
  (c.existing_layers, [BuildEvent.getExistingLayersEv])

/-- Modelled from the spec (§4.5 FunctionBuilder): build every function
against the supplied layer identifiers, reporting tier success. -/
def run_function_build (c : Collaborators) (layers : List String) :
    Bool × List BuildEvent :=
  (c.build_functions layers, [BuildEvent.buildFunctionsEv])

/-- Modelled from the spec (§4.6 BuildOrchestrator.build_functions_only):
first obtain the existing layers via `get_existing_layers` without
rebuilding them, then run the function builder against them, and return
the overall boolean success together with the emitted event trace. -/
def build_functions_only (c : Collaborators) : Bool × List BuildEvent :=
  let (layers, t1) := get_existing_layers c
  let (ok, t2) := run_function_build c layers
  (ok, t1 ++ t2)

/-- The concrete source listing of the exclusion test: two handler
files plus one of each excluded shape. -/
def c3_files : List SrcFile :=
  [⟨"main.py", "def lambda_handler(event, context): return 1", 420⟩,
   ⟨"utils.py", "def helper(): return 2", 420⟩,
   ⟨"main.pyc", "compiled", 420⟩,
   ⟨"main-darwin.so", "binary", 420⟩,
   ⟨".DS_Store", "macos", 420⟩,
   ⟨"_virtualenv.py", "venv", 420⟩,
   ⟨"__pycache__/main.pyc", "compiled", 420⟩]

/-- A two-file source listing used to witness the hypotheses of the
change-detection and determinism theorems on concrete inputs. -/
def ex_files : List SrcFile :=
  [⟨"main.py", "def lambda_handler(event, context): return 1", 420⟩,
   ⟨"utils.py", "def helper(): return 2", 420⟩]

/-- `ex_files` enumerated in the opposite order. -/
def ex_files_rev : List SrcFile :=
  [⟨"utils.py", "def helper(): return 2", 420⟩,
   ⟨"main.py", "def lambda_handler(event, context): return 1", 420⟩]

/-! ## Order properties of the canonical entry order -/

theorem char_toNat_inj {a b : Char} (h : a.toNat = b.toNat) : a = b :=
  Char.eq_of_val_eq (UInt32.toNat.inj h)

theorem chars_lt_cons_iff {x y : Char} {xs ys : List Char} :
    chars_lt (x :: xs) (y :: ys) = true ↔
      x.toNat < y.toNat ∨ (x.toNat = y.toNat ∧ chars_lt xs ys = true) := by
  by_cases h1 : x.toNat < y.toNat
  · simp [chars_lt, h1]
  · by_cases h2 : y.toNat < x.toNat
    · simp only [chars_lt, if_neg h1, if_pos h2]
      constructor
      · intro h; exact absurd h (by simp)
      · rintro (h | ⟨he, _⟩) <;> omega
    · have he : x.toNat = y.toNat := by omega
      simp [chars_lt, h1, h2, he]

theorem chars_lt_irrefl : ∀ l : List Char, chars_lt l l = false
  | [] => rfl
  | x :: xs => by
    rw [Bool.eq_false_iff]
    intro h
    rw [chars_lt_cons_iff] at h
    rcases h with h | ⟨_, h⟩
    · omega
    · rw [chars_lt_irrefl xs] at h; exact Bool.false_ne_true h

theorem chars_lt_trans : ∀ {a b c : List Char},
    chars_lt a b = true → chars_lt b c = true → chars_lt a c = true := by
  intro a
  induction a with
  | nil =>
    intro b c h1 h2
    cases b with
    | nil => simp [chars_lt] at h1
    | cons y ys =>
      cases c with
      | nil => simp [chars_lt] at h2
      | cons z zs => rfl
  | cons x xs ih =>
    intro b c h1 h2
    cases b with
    | nil => simp [chars_lt] at h1
    | cons y ys =>
      cases c with
      | nil => simp [chars_lt] at h2
      | cons z zs =>
        rw [chars_lt_cons_iff] at h1 h2 ⊢
        rcases h1 with h1 | ⟨e1, h1'⟩ <;> rcases h2 with h2 | ⟨e2, h2'⟩
        · exact Or.inl (by omega)
        · exact Or.inl (by omega)
        · exact Or.inl (by omega)
        · exact Or.inr ⟨by omega, ih h1' h2'⟩

theorem chars_lt_eq_of_not_lt : ∀ {a b : List Char},
    chars_lt a b = false → chars_lt b a = false → a = b := by
  intro a
  induction a with
  | nil =>
    intro b h1 _
    cases b with
    | nil => rfl
    | cons y ys => simp [chars_lt] at h1
  | cons x xs ih =>
    intro b h1 h2
    cases b with
    | nil => simp [chars_lt] at h2
    | cons y ys =>
      rw [Bool.eq_false_iff] at h1 h2
      simp only [ne_eq, chars_lt_cons_iff] at h1 h2
      push_neg at h1 h2
      have he : x.toNat = y.toNat := by
        rcases h1 with ⟨h1a, _⟩; rcases h2 with ⟨h2a, _⟩; omega
      have hxs : chars_lt xs ys = false :=
        Bool.eq_false_iff.mpr (h1.2 he)
      have hys : chars_lt ys xs = false :=
        Bool.eq_false_iff.mpr (h2.2 he.symm)
      rw [char_toNat_inj he, ih hxs hys]

theorem str_eq_of_data : ∀ {a b : String}, a.data = b.data → a = b
  | ⟨_⟩, ⟨_⟩, h => congrArg String.mk h

theorem str_lt_trans {a b c : String} (h1 : str_lt a b = true) (h2 : str_lt b c = true) :
    str_lt a c = true := chars_lt_trans h1 h2

theorem str_lt_irrefl (a : String) : str_lt a a = false := chars_lt_irrefl a.data

theorem str_lt_eq_of_not_lt {a b : String} (h1 : str_lt a b = false)
    (h2 : str_lt b a = false) : a = b := str_eq_of_data (chars_lt_eq_of_not_lt h1 h2)

theorem str_lt_asymm {a b : String} (h1 : str_lt a b = true) : str_lt b a = false := by
  rw [Bool.eq_false_iff]
  intro h2
  have := str_lt_trans h1 h2
  rw [str_lt_irrefl a] at this
  exact Bool.false_ne_true this

theorem zip_le_iff {a b : ZipEntry} : ZipLe a b ↔
    str_lt a.filename b.filename = true ∨
      (a.filename = b.filename ∧
        (str_lt a.data b.data = true ∨
          (a.data = b.data ∧ a.external_attr ≤ b.external_attr))) := by
  simp [ZipLe, zip_le, Bool.or_eq_true, Bool.and_eq_true, decide_eq_true_iff]

instance : IsTotal ZipEntry ZipLe := by
  constructor
  intro a b
  rcases hf : str_lt a.filename b.filename with _ | _
  · rcases hf' : str_lt b.filename a.filename with _ | _
    · have hfe : a.filename = b.filename := str_lt_eq_of_not_lt hf hf'
      rcases hd : str_lt a.data b.data with _ | _
      · rcases hd' : str_lt b.data a.data with _ | _
        · have hde : a.data = b.data := str_lt_eq_of_not_lt hd hd'
          rcases Nat.le_total a.external_attr b.external_attr with h | h
          · exact Or.inl (zip_le_iff.mpr (Or.inr ⟨hfe, Or.inr ⟨hde, h⟩⟩))
          · exact Or.inr (zip_le_iff.mpr (Or.inr ⟨hfe.symm, Or.inr ⟨hde.symm, h⟩⟩))
        · exact Or.inr (zip_le_iff.mpr (Or.inr ⟨hfe.symm, Or.inl hd'⟩))
      · exact Or.inl (zip_le_iff.mpr (Or.inr ⟨hfe, Or.inl hd⟩))
    · exact Or.inr (zip_le_iff.mpr (Or.inl hf'))
  · exact Or.inl (zip_le_iff.mpr (Or.inl hf))

instance : IsTrans ZipEntry ZipLe := by
  constructor
  intro a b c hab hbc
  rw [zip_le_iff] at hab hbc ⊢
  rcases hab with hab | ⟨efab, hab'⟩
  · rcases hbc with hbc | ⟨efbc, hbc'⟩
    · exact Or.inl (str_lt_trans hab hbc)
    · exact Or.inl (efbc ▸ hab)
  · rcases hbc with hbc | ⟨efbc, hbc'⟩
    · exact Or.inl (efab ▸ hbc)
    · refine Or.inr ⟨efab.trans efbc, ?_⟩
      rcases hab' with hab' | ⟨edab, hab''⟩
      · rcases hbc' with hbc' | ⟨edbc, hbc''⟩
        · exact Or.inl (str_lt_trans hab' hbc')
        · exact Or.inl (edbc ▸ hab')
      · rcases hbc' with hbc' | ⟨edbc, hbc''⟩
        · exact Or.inl (edab ▸ hbc')
        · exact Or.inr ⟨edab.trans edbc, Nat.le_trans hab'' hbc''⟩

instance : IsAntisymm ZipEntry ZipLe := by
  constructor
  intro a b hab hba
  rw [zip_le_iff] at hab hba
  obtain ⟨fa, da, xa⟩ := a
  obtain ⟨fb, db, xb⟩ := b
  dsimp at hab hba
  rcases hab with hab | ⟨efab, hab'⟩
  · rcases hba with hba | ⟨efba, _⟩
    · rw [str_lt_asymm hab] at hba; exact absurd hba (by simp)
    · rw [efba, str_lt_irrefl] at hab; exact absurd hab (by simp)
  · rcases hba with hba | ⟨_, hba'⟩
    · rw [efab, str_lt_irrefl] at hba; exact absurd hba (by simp)
    · subst efab
      rcases hab' with hab' | ⟨edab, hab''⟩
      · rcases hba' with hba' | ⟨edba, _⟩
        · rw [str_lt_asymm hab'] at hba'; exact absurd hba' (by simp)
        · rw [edba, str_lt_irrefl] at hab'; exact absurd hab' (by simp)
      · rcases hba' with hba' | ⟨edba, hba''⟩
        · rw [edab, str_lt_irrefl] at hba'; exact absurd hba' (by simp)
        · rw [edab, Nat.le_antisymm hab'' hba'']

/-! ## Structure of the produced archive -/

theorem foldl_add_file : ∀ (l : List SrcFile) (zf : List ZipEntry),
    l.foldl (fun z f => add_file z f f.path) zf =
      zf ++ l.map fun f => added_entry f f.path
  | [], zf => by simp
  | f :: fs, zf => by
    simp only [List.foldl_cons, List.map_cons]
    rw [foldl_add_file fs]
    simp [add_file]

theorem create_zip_eq (files : List SrcFile) (fn sn : Option String)
    (rd : List RouterEntry) :
    create_zip_from_directory files fn sn rd =
      ((files.filter fun f => !is_excluded f.path).map fun f => added_entry f f.path) ++
        (if rd = [] then [] else [added_entry (wrapper_file rd) "lambda_function.py"]) ++
        (if sn = some "health" ∧ (∀ f ∈ files, f.path ≠ "health/get.py") then
          [added_entry health_file "health/get.py"] else []) := by
  simp only [create_zip_from_directory]
  rw [foldl_add_file]
  simp only [List.nil_append]
  split <;> split <;> simp [add_file]

theorem compute_sha256_perm {zf₁ zf₂ : List ZipEntry} (h : zf₁.Perm zf₂) :
    compute_sha256 zf₁ = compute_sha256 zf₂ := by
  unfold compute_sha256
  exact List.eq_of_perm_of_sorted
    ((List.perm_insertionSort ZipLe zf₁).trans
      (h.trans (List.perm_insertionSort ZipLe zf₂).symm))
    (List.sorted_insertionSort ZipLe zf₁)
    (List.sorted_insertionSort ZipLe zf₂)

theorem zip_plain (files : List SrcFile) :
    create_zip_from_directory files none none [] =
      (files.filter fun f => !is_excluded f.path).map fun f => added_entry f f.path := by
  rw [create_zip_eq]
  simp

theorem insertionSort_inj_perm {l₁ l₂ : List ZipEntry}
    (h : l₁.insertionSort ZipLe = l₂.insertionSort ZipLe) : l₁.Perm l₂ := by
  have h3 := (List.perm_insertionSort ZipLe l₁).symm
  rw [h] at h3
  exact h3.trans (List.perm_insertionSort ZipLe l₂)

theorem digest_change {files : List SrcFile} {p c c' : String} {m : Nat}
    (hmem : (⟨p, c, m⟩ : SrcFile) ∈ files) (hinc : is_excluded p = false)
    (hne : c' ≠ c) : local_digest (alter_content files p c') ≠ local_digest files := by
  intro heq
  have h1 : (((alter_content files p c').filter fun f => !is_excluded f.path).map
        fun f => added_entry f f.path).insertionSort ZipLe =
      (((files.filter fun f => !is_excluded f.path)).map
        fun f => added_entry f f.path).insertionSort ZipLe := by
    simpa [local_digest, zip_plain, compute_sha256] using heq
  have hperm := insertionSort_inj_perm h1
  have hmem' : added_entry ⟨p, c, m⟩ p ∈
      (files.filter fun f => !is_excluded f.path).map fun f => added_entry f f.path :=
    List.mem_map.mpr ⟨⟨p, c, m⟩, List.mem_filter.mpr ⟨hmem, by simp [hinc]⟩, rfl⟩
  have hmem'' := hperm.mem_iff.mpr hmem'
  rcases List.mem_map.mp hmem'' with ⟨f', hf', hval⟩
  have hf'mem : f' ∈ alter_content files p c' := (List.mem_filter.mp hf').1
  rcases List.mem_map.mp hf'mem with ⟨f, _, hfeq⟩
  have hpath : f'.path = p := by
    have := congrArg ZipEntry.filename hval
    simpa [added_entry] using this
  have hcont : f'.content = c := by
    have := congrArg ZipEntry.data hval
    simpa [added_entry] using this
  by_cases hfp : f.path = p
  · rw [if_pos hfp] at hfeq
    rw [← hfeq] at hcont
    exact hne hcont
  · rw [if_neg hfp] at hfeq
    rw [← hfeq] at hpath
    exact hfp hpath

/-- Claim C1: for every resource name, source directory and remote
digest, `compare_function_code` returns true iff the freshly computed
local digest differs from the supplied remote digest or the remote
digest is unknown; when the remote digest equals the digest of the
unchanged directory it returns false, and after altering the content of
any included file it returns true. -/
theorem claim_C1_change_detector (name : String) (files : List SrcFile)
    (remote : Option (List ZipEntry)) :
    (compare_function_code name files remote = true ↔
      (remote = none ∨ remote ≠ some (local_digest files))) ∧
    compare_function_code name files (some (local_digest files)) = false ∧
    (∀ p c c' m, (⟨p, c, m⟩ : SrcFile) ∈ files → is_excluded p = false → c' ≠ c →
      compare_function_code name (alter_content files p c') (some (local_digest files)) = true) := by
  refine ⟨?_, ?_, ?_⟩
  · cases remote with
    | none => simp [compare_function_code]
    | some d => simp [compare_function_code]
  · simp [compare_function_code]
  · intro p c c' m hmem hinc hne
    simp only [compare_function_code, decide_eq_true_iff]
    exact fun hcontra => (digest_change hmem hinc hne) hcontra.symm

/-- Witness for C1 on a concrete two-file directory. -/
theorem claim_C1_witness :
    compare_function_code "test-function" ex_files (some (local_digest ex_files)) = false ∧
    compare_function_code "test-function"
      (alter_content ex_files "main.py" "changed")
      (some (local_digest ex_files)) = true :=
  ⟨(claim_C1_change_detector "test-function" ex_files (some (local_digest ex_files))).2.1,
   (claim_C1_change_detector "test-function" ex_files (some (local_digest ex_files))).2.2
     "main.py" "def lambda_handler(event, context): return 1" "changed" 420
     (by decide) (by decide) (by decide)⟩

/-- Claim C2: packaging is deterministic — the content digest of the
produced archive is invariant under any reordering (permutation) of the
source directory's file enumeration, and in particular two runs over
the same unchanged input agree. -/
theorem claim_C2_packaging_deterministic (fn sn : Option String) (rd : List RouterEntry)
    {files₁ files₂ : List SrcFile} (h : files₁.Perm files₂) :
    compute_sha256 (create_zip_from_directory files₁ fn sn rd) =
      compute_sha256 (create_zip_from_directory files₂ fn sn rd) := by
  apply compute_sha256_perm
  rw [create_zip_eq, create_zip_eq]
  have hcond : (sn = some "health" ∧ ∀ f ∈ files₁, f.path ≠ "health/get.py") ↔
      (sn = some "health" ∧ ∀ f ∈ files₂, f.path ≠ "health/get.py") := by
    constructor
    · rintro ⟨hs, hall⟩
      exact ⟨hs, fun f hf => hall f (h.mem_iff.mpr hf)⟩
    · rintro ⟨hs, hall⟩
      exact ⟨hs, fun f hf => hall f (h.mem_iff.mp hf)⟩
  have e : (if sn = some "health" ∧ ∀ f ∈ files₁, f.path ≠ "health/get.py" then
        [added_entry health_file "health/get.py"] else ([] : List ZipEntry)) =
      (if sn = some "health" ∧ ∀ f ∈ files₂, f.path ≠ "health/get.py" then
        [added_entry health_file "health/get.py"] else []) :=
    if_congr hcond rfl rfl
  rw [e]
  exact (((h.filter _).map _).append_right _).append_right _

/-- Witness for C2 on two opposite enumerations of the same directory. -/
theorem claim_C2_witness :
    compute_sha256 (create_zip_from_directory ex_files none none []) =
      compute_sha256 (create_zip_from_directory ex_files_rev none none []) :=
  claim_C2_packaging_deterministic none none [] (by decide)

/-- Claim C3: for the directory containing `main.py`, `utils.py`,
`main.pyc`, `main-darwin.so`, `.DS_Store`, `_virtualenv.py` and a
`__pycache__/` subtree, the produced archive contains exactly `main.py`
and `utils.py`; every excluded shape is dropped. -/
theorem claim_C3_exclusions :
    (create_zip_from_directory c3_files none none []).map ZipEntry.filename =
      ["main.py", "utils.py"] := by decide

/-- Claim C4: config resolution precedence — with the generic file
present it is selected over the infra-suffixed one; with only the
infra-suffixed file present that one is selected; with no variant
present the category resolves to the absent sentinel and no exception
is raised. -/
theorem claim_C4_config_precedence (l : Listing) (infra : String) (pub : Bool)
    (base : String) :
    (base ∈ l.files → best_config_file l base infra pub = some base) ∧
    (base ∉ l.files → base ++ "." ++ infra ∈ l.files →
      best_config_file l base infra pub = some (base ++ "." ++ infra)) ∧
    (base ∉ l.files → base ++ "." ++ infra ∉ l.files → base ++ ".public" ∉ l.files →
      best_config_file l base infra pub = none) := by
  refine ⟨fun h1 => ?_, fun h1 h2 => ?_, fun h1 h2 h3 => ?_⟩
  · simp [best_config_file, h1]
  · simp [best_config_file, h1, h2]
  · simp [best_config_file, h1, h2, h3]

/-- Witness for C4: the three precedence scenarios at concrete listings
with active infra `dev`. -/
theorem claim_C4_witness :
    best_config_file ⟨[], [".tool", ".tool.dev"]⟩ ".tool" "dev" false = some ".tool" ∧
    best_config_file ⟨[], [".tool.dev"]⟩ ".tool" "dev" false =
      some (".tool" ++ "." ++ "dev") ∧
    best_config_file ⟨[], []⟩ ".tool" "dev" false = none :=
  ⟨(claim_C4_config_precedence ⟨[], [".tool", ".tool.dev"]⟩ "dev" false ".tool").1
     (by decide),
   (claim_C4_config_precedence ⟨[], [".tool.dev"]⟩ "dev" false ".tool").2.1
     (by decide) (by decide),
   (claim_C4_config_precedence ⟨[], []⟩ "dev" false ".tool").2.2
     (by decide) (by decide) (by decide)⟩

/-- Claim C5: packaging with `short_name = "health"` and no
user-supplied handler at `health/get.py` synthesizes an archive entry at
`health/get.py` whose content contains the literal confirmation
phrase. -/
theorem claim_C5_health_stub (files : List SrcFile) (fn : Option String)
    (rd : List RouterEntry) (h : ∀ f ∈ files, f.path ≠ "health/get.py") :
    ∃ e ∈ create_zip_from_directory files fn (some "health") rd,
      e.filename = "health/get.py" ∧ ∃ a b, e.data = a ++ health_phrase ++ b := by
  refine ⟨added_entry health_file "health/get.py", ?_, rfl, ?_⟩
  · rw [create_zip_eq]
    simp
    exact Or.inr (Or.inr fun f hf => h f hf)
  · refine ⟨"def lambda_handler(event, context):\n    return \x7b\"statusCode\": 200, \"body\": \"",
      "\"\x7d\n", ?_⟩
    decide

/-- Witness for C5 on the empty source directory. -/
theorem claim_C5_witness :
    ∃ e ∈ create_zip_from_directory [] none (some "health") [],
      e.filename = "health/get.py" ∧ ∃ a b, e.data = a ++ health_phrase ++ b :=
  claim_C5_health_stub [] none [] (by simp)

/-- Claim C6: `add_file` appends exactly one entry whose external
attributes carry the source file's mode bits in the high 16 bits, so
the mode — in particular the executable bits — rounds-trip through the
archive. -/
theorem claim_C6_permission_roundtrip (zf : List ZipEntry) (f : SrcFile) (arc : String)
    (h : f.mode < 2 ^ 16) :
    add_file zf f arc = zf ++ [added_entry f arc] ∧
    zip_mode (added_entry f arc) = f.mode ∧
    (f.mode &&& 0o111 ≠ 0 → zip_mode (added_entry f arc) &&& 0o111 ≠ 0) := by
  have hm : zip_mode (added_entry f arc) = f.mode := by
    unfold zip_mode added_entry
    simp only
    rw [Nat.mod_eq_of_lt h, Nat.mul_div_cancel _ (by norm_num)]
  exact ⟨rfl, hm, fun hx => by rw [hm]; exact hx⟩

/-- Witness for C6: an executable (mode `0o755`) file stays executable
when its archive entry is read back. -/
theorem claim_C6_witness :
    zip_mode (added_entry ⟨"executable.py", "print(1)", 0o755⟩ "executable.py") = 0o755 ∧
    zip_mode (added_entry ⟨"executable.py", "print(1)", 0o755⟩ "executable.py") &&& 0o111 ≠ 0 :=
  ⟨(claim_C6_permission_roundtrip [] ⟨"executable.py", "print(1)", 0o755⟩ "executable.py"
      (by decide)).2.1,
   (claim_C6_permission_roundtrip [] ⟨"executable.py", "print(1)", 0o755⟩ "executable.py"
      (by decide)).2.2 (by decide)⟩

/-- Claim C7: with no configuration file of any variant present,
resolution returns the absent sentinel for both categories, loading
yields empty maps rather than aborting, and context detection still
records the discovered api and layer paths. -/
theorem claim_C7_absent_config (cwd : String) (l : Listing) (ei ci : Option String)
    (reader : String → List (String × String))
    (h1 : ".tool" ∉ l.files)
    (h2 : ".tool." ++ (detect_project_context cwd l ei ci).infra ∉ l.files)
    (h3 : ".tool.public" ∉ l.files)
    (h4 : ".env" ∉ l.files)
    (h5 : ".env." ++ (detect_project_context cwd l ei ci).infra ∉ l.files)
    (h6 : ".env.public" ∉ l.files) :
    find_best_config_files l (detect_project_context cwd l ei ci) = (none, none) ∧
    load_config (find_best_config_files l (detect_project_context cwd l ei ci)).1 reader = [] ∧
    load_config (find_best_config_files l (detect_project_context cwd l ei ci)).2 reader = [] ∧
    ("api" ∈ l.dirs ↔ "./api" ∈ (detect_project_context cwd l ei ci).api_paths) ∧
    ("layers" ∈ l.dirs ↔ "./layers" ∈ (detect_project_context cwd l ei ci).layer_paths) := by
  have e1 : ".tool" ++ "." ++ (detect_project_context cwd l ei ci).infra =
      ".tool." ++ (detect_project_context cwd l ei ci).infra := by
    rw [show (".tool" ++ "." : String) = ".tool." from by decide]
  have e2 : ".env" ++ "." ++ (detect_project_context cwd l ei ci).infra =
      ".env." ++ (detect_project_context cwd l ei ci).infra := by
    rw [show (".env" ++ "." : String) = ".env." from by decide]
  have e3 : (".tool" ++ ".public" : String) = ".tool.public" := by decide
  have e4 : (".env" ++ ".public" : String) = ".env.public" := by decide
  have hfst : best_config_file l ".tool" (detect_project_context cwd l ei ci).infra
      (detect_project_context cwd l ei ci).is_public = none := by
    unfold best_config_file
    rw [if_neg h1, e1, if_neg h2, e3, if_neg fun hc => h3 hc.2]
  have hsnd : best_config_file l ".env" (detect_project_context cwd l ei ci).infra
      (detect_project_context cwd l ei ci).is_public = none := by
    unfold best_config_file
    rw [if_neg h4, e2, if_neg h5, e4, if_neg fun hc => h6 hc.2]
  refine ⟨?_, ?_, ?_, ?_, ?_⟩
  · simp [find_best_config_files, hfst, hsnd]
  · simp [find_best_config_files, hfst, load_config]
  · simp [find_best_config_files, hsnd, load_config]
  · by_cases hA : "api" ∈ l.dirs <;> by_cases hB : "api_public" ∈ l.dirs <;>
      simp [detect_project_context, hA, hB]
  · by_cases hL : "layers" ∈ l.dirs <;> simp [detect_project_context, hL]

/-- Witness for C7 on a project with api and layers roots and no
configuration files. -/
theorem claim_C7_witness :
    find_best_config_files ⟨["api", "layers"], []⟩
        (detect_project_context "/p" ⟨["api", "layers"], []⟩ none none) = (none, none) ∧
    ("api" ∈ (⟨["api", "layers"], []⟩ : Listing).dirs ↔
      "./api" ∈ (detect_project_context "/p" ⟨["api", "layers"], []⟩ none none).api_paths) :=
  ⟨(claim_C7_absent_config "/p" ⟨["api", "layers"], []⟩ none none (fun _ => [])
      (by decide) (by decide) (by decide) (by decide) (by decide) (by decide)).1,
   (claim_C7_absent_config "/p" ⟨["api", "layers"], []⟩ none none (fun _ => [])
      (by decide) (by decide) (by decide) (by decide) (by decide) (by decide)).2.2.2.1⟩

/-- Claim C8: `build_functions_only` emits exactly the
resolve-existing-layers event followed by the function-build event —
so the layer identifiers are resolved, without any layer rebuild,
before any function build starts — and returns the function tier's
boolean success. -/
theorem claim_C8_functions_only_ordering (c : Collaborators) :
    (build_functions_only c).2 =
      [BuildEvent.getExistingLayersEv, BuildEvent.buildFunctionsEv] ∧
    (build_functions_only c).2.count BuildEvent.buildLayersEv = 0 ∧
    (build_functions_only c).1 = c.build_functions (get_existing_layers c).1 :=
  ⟨rfl, rfl, rfl⟩

/-- Claim C9: context detection sets `is_public` iff the public-API
directory is present at the project root, and records each present API
root in `api_paths`; an absent directory is simply omitted. -/
theorem claim_C9_public_detection (cwd : String) (l : Listing) (ei ci : Option String) :
    ((detect_project_context cwd l ei ci).is_public = true ↔ "api_public" ∈ l.dirs) ∧
    ("./api" ∈ (detect_project_context cwd l ei ci).api_paths ↔ "api" ∈ l.dirs) ∧
    ("./api_public" ∈ (detect_project_context cwd l ei ci).api_paths ↔
      "api_public" ∈ l.dirs) := by
  refine ⟨by simp [detect_project_context], ?_, ?_⟩
  · by_cases hA : "api" ∈ l.dirs <;> by_cases hB : "api_public" ∈ l.dirs <;>
      simp [detect_project_context, hA, hB]
  · by_cases hA : "api" ∈ l.dirs <;> by_cases hB : "api_public" ∈ l.dirs <;>
      simp [detect_project_context, hA, hB]

theorem str_append_assoc : ∀ a b c : String, a ++ b ++ c = a ++ (b ++ c)
  | ⟨a⟩, ⟨b⟩, ⟨c⟩ => congrArg String.mk (List.append_assoc a b c)

theorem str_sub_intro (pre mid post : String) {s : String}
    (h : s = pre ++ (mid ++ post)) : ∃ a b, s = a ++ mid ++ b :=
  ⟨pre, post, by rw [h, str_append_assoc]⟩

set_option maxRecDepth 8192

/-- Claim C10: whenever router data is non-empty, the produced archive
contains a synthesized dispatcher named exactly `lambda_function.py` at
the archive root whose content defines a `lambda_handler` entry point
and performs dynamic module loading via `importlib`. -/
theorem claim_C10_dispatcher (files : List SrcFile) (fn sn : Option String)
    (rd : List RouterEntry) (h : rd ≠ []) :
    ∃ e ∈ create_zip_from_directory files fn sn rd,
      e.filename = "lambda_function.py" ∧
      (∃ a b, e.data = a ++ "importlib" ++ b) ∧
      (∃ a b, e.data = a ++ "lambda_handler" ++ b) := by
  refine ⟨added_entry (wrapper_file rd) "lambda_function.py", ?_, rfl, ?_, ?_⟩
  · rw [create_zip_eq, if_neg h]
    simp
  · refine str_sub_intro "import " "importlib"
      ("\n\nROUTES = \"" ++ (routes_ser rd ++ wrapper_tail)) ?_
    show wrapper_content rd =
      "import " ++ ("importlib" ++ ("\n\nROUTES = \"" ++ (routes_ser rd ++ wrapper_tail)))
    rw [wrapper_content,
      show wrapper_head = "import " ++ ("importlib" ++ "\n\nROUTES = \"") from by decide]
    simp only [← str_append_assoc]
  · refine str_sub_intro (wrapper_head ++ (routes_ser rd ++ "\"\n\ndef ")) "lambda_handler"
      "(event, context):\n    target = resolve(ROUTES, event)\n    module = importlib.import_module(target)\n    return module.lambda_handler(event, context)\n" ?_
    show wrapper_content rd =
      wrapper_head ++ (routes_ser rd ++ "\"\n\ndef ") ++
        ("lambda_handler" ++
          "(event, context):\n    target = resolve(ROUTES, event)\n    module = importlib.import_module(target)\n    return module.lambda_handler(event, context)\n")
    rw [wrapper_content,
      show wrapper_tail = "\"\n\ndef " ++
        ("lambda_handler" ++
          "(event, context):\n    target = resolve(ROUTES, event)\n    module = importlib.import_module(target)\n    return module.lambda_handler(event, context)\n")
        from by decide]
    simp only [← str_append_assoc]

/-- Witness for C10 on a singleton router table. -/
theorem claim_C10_witness :
    ∃ e ∈ create_zip_from_directory ex_files none none
        [⟨"GET", "/test", "/test", "test", "main.py"⟩],
      e.filename = "lambda_function.py" ∧
      (∃ a b, e.data = a ++ "importlib" ++ b) ∧
      (∃ a b, e.data = a ++ "lambda_handler" ++ b) :=
  claim_C10_dispatcher ex_files none none [⟨"GET", "/test", "/test", "test", "main.py"⟩]
    (by decide)

/-- Witness for C8 at a concrete collaborator set. -/
theorem claim_C8_witness :
    (build_functions_only ⟨["layer-arn-1"], fun ls => decide (ls = ["layer-arn-1"])⟩).2 =
      [BuildEvent.getExistingLayersEv, BuildEvent.buildFunctionsEv] ∧
    (build_functions_only ⟨["layer-arn-1"], fun ls => decide (ls = ["layer-arn-1"])⟩).1 =
      true :=
  ⟨(claim_C8_functions_only_ordering
      ⟨["layer-arn-1"], fun ls => decide (ls = ["layer-arn-1"])⟩).1,
   by
    rw [(claim_C8_functions_only_ordering
      ⟨["layer-arn-1"], fun ls => decide (ls = ["layer-arn-1"])⟩).2.2]
    decide⟩

/-- Witness for C9 on a listing with both API roots present. -/
theorem claim_C9_witness :
    ((detect_project_context "/p" ⟨["api", "api_public"], []⟩ none none).is_public = true ↔
      "api_public" ∈ (⟨["api", "api_public"], []⟩ : Listing).dirs) ∧
    ("./api_public" ∈
        (detect_project_context "/p" ⟨["api", "api_public"], []⟩ none none).api_paths ↔
      "api_public" ∈ (⟨["api", "api_public"], []⟩ : Listing).dirs) :=
  ⟨(claim_C9_public_detection "/p" ⟨["api", "api_public"], []⟩ none none).1,
   (claim_C9_public_detection "/p" ⟨["api", "api_public"], []⟩ none none).2.2⟩
